/-
  Verification of the flash-translation-worker metering / quota / entitlement core.

  Shallow embedding of the TypeScript sources:
    * src/config/limits.ts      — tiers, quota tables, endpoint → resource-type map
    * src/config/pricing.ts     — live-model per-modality price table
    * src/models/usage.ts       — logUsage / getUsageStats over the aggregate store
    * src/models/subscription.ts— entitlement upserts
    * src/middleware/auth.ts    — admission control (tier resolution, quota check)
    * src/controllers/user.ts   — quota inspection endpoint
    * src/controllers/revenuecat.ts — webhook (entitlements, transfers, consumables)
    * src/controllers/translation.ts — live relay settlement and frame filtering
    * src/utils/cost.ts         — aggregateUsage / calculateCostFromBreakdown

  Databases are modelled as explicit functional state (keyed maps and append-only
  lists); JavaScript `x || d` on numbers is `Option.getD`-with-zero-falsy, and
  `Date.now()` is threaded as an explicit parameter.
-/
import Mathlib

namespace Flash

/-! ## Config: tiers, resource types, quota tables (src/config/limits.ts) -/

/-- Resource types, from `ResourceType` in limits.ts. -/
inductive ResourceType
  | text_translation
  | text_classify
  | image_translation
  | live_translation
  | tts
  | recognition
deriving DecidableEq, Repr

/-- Membership tiers, from `MembershipTier` in limits.ts. -/
inductive MembershipTier
  | FREE
  | LITE
  | PRO
  | UNLIMITED
  | TRIAL_CANCELLED
deriving DecidableEq, Repr

/-- A quota row `{daily, monthly, total?}` from limits.ts. -/
structure Quota where
  daily : Nat
  monthly : Nat
  total : Option Nat
deriving DecidableEq, Repr

open ResourceType MembershipTier in
/-- The static `TIER_LIMITS` table from limits.ts. -/
def TIER_LIMITS : MembershipTier → ResourceType → Quota
  | FREE, text_translation => ⟨40, 100, some 100⟩
  | FREE, text_classify => ⟨40, 100, some 100⟩
  | FREE, image_translation => ⟨20, 20, some 20⟩
  | FREE, live_translation => ⟨600, 600, some 600⟩
  | FREE, tts => ⟨200, 1000, some 1000⟩
  | FREE, recognition => ⟨600, 600, some 600⟩
  | LITE, text_translation => ⟨60, 300, none⟩
  | LITE, text_classify => ⟨60, 300, none⟩
  | LITE, image_translation => ⟨40, 40, none⟩
  | LITE, live_translation => ⟨3600, 3600, none⟩
  | LITE, tts => ⟨300, 1500, none⟩
  | LITE, recognition => ⟨100, 600, none⟩
  | PRO, text_translation => ⟨100, 500, none⟩
  | PRO, text_classify => ⟨100, 500, none⟩
  | PRO, image_translation => ⟨100, 300, none⟩
  | PRO, live_translation => ⟨36000, 36000, none⟩
  | PRO, tts => ⟨500, 3000, none⟩
  | PRO, recognition => ⟨100, 1000, none⟩
  | UNLIMITED, text_translation => ⟨500, 2000, none⟩
  | UNLIMITED, text_classify => ⟨500, 2000, none⟩
  | UNLIMITED, image_translation => ⟨150, 1200, none⟩
  | UNLIMITED, live_translation => ⟨108000, 108000, none⟩
  | UNLIMITED, tts => ⟨1000, 6000, none⟩
  | UNLIMITED, recognition => ⟨100, 2000, none⟩
  | TRIAL_CANCELLED, text_translation => ⟨40, 100, none⟩
  | TRIAL_CANCELLED, text_classify => ⟨40, 100, none⟩
  | TRIAL_CANCELLED, image_translation => ⟨20, 20, none⟩
  | TRIAL_CANCELLED, live_translation => ⟨1800, 1800, some 1800⟩
  | TRIAL_CANCELLED, tts => ⟨200, 1000, none⟩
  | TRIAL_CANCELLED, recognition => ⟨100, 1000, none⟩

/-- Prefix test on character lists (JS `String.prototype.startsWith` building block). -/
def isPref : List Char → List Char → Bool
  | [], _ => true
  | _ :: _, [] => false
  | a :: as, b :: bs => a == b && isPref as bs

/-- Substring test on character lists, embedding JS `hay.includes(needle)`. -/
def containsSub (needle : List Char) : List Char → Bool
  | [] => isPref needle []
  | c :: t => isPref needle (c :: t) || containsSub needle t

/-- Substring test on strings: `pathname.includes(path)` from getResourceTypeFromUrl. -/
def strIncludes (hay needle : String) : Bool :=
  containsSub needle.data hay.data

open ResourceType in
/-- The `ENDPOINT_TYPE_MAP` entries of limits.ts, in declaration order. -/
def ENDPOINT_TYPE_MAP : List (String × ResourceType) :=
  [("/translation/text", text_translation),
   ("/translation/longtext", text_translation),
   ("/translation/word", text_translation),
   ("/translation/classify", text_classify),
   ("/translation/image", image_translation),
   ("/translation/live", live_translation),
   ("/translation/tts", tts),
   ("/translation/recognition", recognition)]

/-- The for-loop body of `getResourceTypeFromUrl`: first entry whose path occurs in
the pathname wins; the default is `text_translation`. -/
def lookupEndpointType (pathname : String) : List (String × ResourceType) → ResourceType
  | [] => ResourceType.text_translation
  | (path, t) :: rest =>
      if strIncludes pathname path then t else lookupEndpointType pathname rest

/-- `getResourceTypeFromUrl` from limits.ts. -/
def getResourceTypeFromUrl (pathname : String) : ResourceType :=
  lookupEndpointType pathname ENDPOINT_TYPE_MAP

/-- Claim-side reading of C10: the result is the mapped type of the first table entry
whose path key occurs in the pathname, with default text_translation. -/
def firstMatchingEndpointType (pathname : String) : Option ResourceType :=
  (ENDPOINT_TYPE_MAP.find? (fun e => strIncludes pathname e.1)).map Prod.snd

/-! ## Usage ledger store (src/models/usage.ts, aggregate version)

`logUsage` appends one row to `usage_logs` and performs three additive upserts into
`user_usage_stats` keyed by (userId, endpoint, periodType, periodValue).  Time is
threaded as the pair of UTC keys produced by `getUtcDateStrings` (a `YYYY-MM-DD`
day key and a `YYYY-MM` month key). -/

/-- The `{daily, monthly}` result of `getUtcDateStrings(now)`. -/
structure DayMonth where
  daily : String
  monthly : String
deriving DecidableEq, Repr

/-- Composite key of the `user_usage_stats` table. -/
structure AggKey where
  userId : String
  endpoint : String
  periodType : String
  periodValue : String
deriving DecidableEq, Repr

/-- Counters of one `user_usage_stats` row (updatedAt omitted: no claim reads it). -/
structure AggRow where
  count : Nat
  durationSeconds : Nat
  totalTokens : Nat
deriving DecidableEq, Repr

/-- One `usage_logs` audit row (id and createdAt are abstracted: the id is a random
UUID no logic reads, and createdAt is represented by the UTC day/month keys the
aggregation logic derives from it). -/
structure UsageEventRow where
  userId : String
  endpoint : String
  model : String
  inputTokens : Nat
  outputTokens : Nat
  costMicros : Int
  durationSeconds : Option Nat
  requestHash : Option String
  dayKey : String
  monthKey : String
deriving DecidableEq, Repr

/-- The usage-ledger database: append-only audit log plus keyed aggregate rows. -/
structure LedgerState where
  usageLogs : List UsageEventRow
  aggregates : AggKey → Option AggRow

/-- The ledger before any write. -/
def emptyLedger : LedgerState := ⟨[], fun _ => none⟩

/-- JS `x || null` on an optional number: 0 is falsy and becomes null. -/
def jsOrNull (d : Option Nat) : Option Nat :=
  if d.getD 0 = 0 then none else d

/-- The additive effect of one `onConflictDoUpdate` upsert on an optional row:
insert `{count: 1, durationSeconds: duration, totalTokens}` or increment each field. -/
def incrAgg (r : Option AggRow) (duration totalTokens : Nat) : AggRow :=
  match r with
  | none => ⟨1, duration, totalTokens⟩
  | some r => ⟨r.count + 1, r.durationSeconds + duration, r.totalTokens + totalTokens⟩

/-- One aggregate upsert of `logUsage` (insert-or-increment at one key). -/
def upsertAgg (m : AggKey → Option AggRow) (k : AggKey) (duration totalTokens : Nat) :
    AggKey → Option AggRow :=
  fun k' => if k' = k then some (incrAgg (m k) duration totalTokens) else m k'

/-- The audit row inserted by `logUsage`. -/
def mkUsageRow (now : DayMonth) (userId model : String) (inputTokens outputTokens : Nat)
    (costMicros : Int) (endpoint : String) (requestHash : Option String)
    (durationSeconds : Option Nat) : UsageEventRow :=
  ⟨userId, endpoint, model, inputTokens, outputTokens, costMicros,
    jsOrNull durationSeconds, requestHash, now.daily, now.monthly⟩

/-- `logUsage` from usage.ts: append the audit row, then upsert the daily, monthly
and total aggregate rows with `count + 1`, `durationSeconds + duration`,
`totalTokens + totalTokens` (duration is `durationSeconds || 0`). -/
def logUsage (st : LedgerState) (now : DayMonth) (userId model : String)
    (inputTokens outputTokens : Nat) (costMicros : Int) (endpoint : String)
    (requestHash : Option String) (durationSeconds : Option Nat) : LedgerState :=
  let totalTokens := inputTokens + outputTokens
  let duration := durationSeconds.getD 0
  { usageLogs := st.usageLogs ++
      [mkUsageRow now userId model inputTokens outputTokens costMicros endpoint
        requestHash durationSeconds],
    aggregates :=
      upsertAgg
        (upsertAgg
          (upsertAgg st.aggregates ⟨userId, endpoint, "daily", now.daily⟩ duration totalTokens)
          ⟨userId, endpoint, "monthly", now.monthly⟩ duration totalTokens)
        ⟨userId, endpoint, "total", "total"⟩ duration totalTokens }

/-- The `{daily, monthly, total}` result of `getUsageStats`. -/
structure UsageStats where
  daily : Nat
  monthly : Nat
  total : Nat
deriving DecidableEq, Repr

/-- The metered quantity of a row: `durationSeconds` for live_translation, else `count`. -/
def aggValue (isLive : Bool) (r : AggRow) : Nat :=
  if isLive then r.durationSeconds else r.count

/-- `getUsageStats` from usage.ts: read the daily row at the current day key, the
monthly row at the current month key and the total row, taking `durationSeconds`
for live_translation and `count` otherwise (absent row reads as 0).  The
`includeTotal` parameter is declared by the source but unused in this version. -/
def getUsageStats (st : LedgerState) (now : DayMonth) (userId endpoint : String)
    (_includeTotal : Bool) : UsageStats :=
  let isLive := endpoint == "live_translation"
  { daily :=
      ((st.aggregates ⟨userId, endpoint, "daily", now.daily⟩).map (aggValue isLive)).getD 0,
    monthly :=
      ((st.aggregates ⟨userId, endpoint, "monthly", now.monthly⟩).map (aggValue isLive)).getD 0,
    total :=
      ((st.aggregates ⟨userId, endpoint, "total", "total"⟩).map (aggValue isLive)).getD 0 }

/-! ### Claim-side notions for C8: which audit events an aggregate row accounts for -/

/-- Whether an audit event falls in the period of an aggregate key. -/
def periodMatches (k : AggKey) (e : UsageEventRow) : Bool :=
  if k.periodType = "daily" then k.periodValue == e.dayKey
  else if k.periodType = "monthly" then k.periodValue == e.monthKey
  else if k.periodType = "total" then k.periodValue == "total"
  else false

/-- Whether an audit event is accounted for by an aggregate key. -/
def matchesKey (k : AggKey) (e : UsageEventRow) : Bool :=
  e.userId == k.userId && e.endpoint == k.endpoint && periodMatches k e

/-- The audit events an aggregate key accounts for. -/
def eventsFor (st : LedgerState) (k : AggKey) : List UsageEventRow :=
  st.usageLogs.filter (matchesKey k)

/-- Duration an event contributes to aggregates (a stored null reads as 0). -/
def eventDuration (e : UsageEventRow) : Nat := e.durationSeconds.getD 0

/-- Tokens an event contributes to aggregates. -/
def eventTokens (e : UsageEventRow) : Nat := e.inputTokens + e.outputTokens

/-- The C8 ledger invariant: every aggregate row (absent read as zero) equals the
sum of the matching audit events. -/
def AggInv (st : LedgerState) : Prop :=
  ∀ k : AggKey,
    ((st.aggregates k).map AggRow.count).getD 0 = (eventsFor st k).length ∧
    ((st.aggregates k).map AggRow.durationSeconds).getD 0 =
      ((eventsFor st k).map eventDuration).sum ∧
    ((st.aggregates k).map AggRow.totalTokens).getD 0 =
      ((eventsFor st k).map eventTokens).sum

/-- The per-call arguments of one usage recording. -/
structure UsageArgs where
  model : String
  inputTokens : Nat
  outputTokens : Nat
  costMicros : Int
  requestHash : Option String
  durationSeconds : Option Nat
deriving DecidableEq, Repr

/-- One full recording call: time keys, identity, endpoint and arguments. -/
structure FullCall where
  now : DayMonth
  userId : String
  endpoint : String
  args : UsageArgs
deriving DecidableEq, Repr

/-- Run one full recording call. -/
def applyCall (st : LedgerState) (c : FullCall) : LedgerState :=
  logUsage st c.now c.userId c.args.model c.args.inputTokens c.args.outputTokens
    c.args.costMicros c.endpoint c.args.requestHash c.args.durationSeconds

/-- Run a sequence of recording calls in order. -/
def applyCalls (st : LedgerState) (cs : List FullCall) : LedgerState :=
  cs.foldl applyCall st

/-- The audit row a full call appends. -/
def callRow (c : FullCall) : UsageEventRow :=
  mkUsageRow c.now c.userId c.args.model c.args.inputTokens c.args.outputTokens
    c.args.costMicros c.endpoint c.args.requestHash c.args.durationSeconds

/-! ## Entitlements and tier resolution (src/middleware/auth.ts, subscription.ts)

Entitlement rows are stored per (userId, entitlementId); `isTrial`/`autoRenew` are
the 0/1 integers the SQLite schema stores. -/

/-- One `user_entitlements` row as read for a single user. -/
structure EntRow where
  entitlementId : String
  status : String
  expiresAt : Option Int
  isTrial : Nat
  autoRenew : Nat
deriving DecidableEq, Repr

/-- The active filter of auth.ts: `status === 'active' && (expiresAt === null ||
expiresAt > Date.now())`. -/
def activeEntitlements (now : Int) (es : List EntRow) : List EntRow :=
  es.filter (fun ent => ent.status == "active" &&
    (match ent.expiresAt with
      | none => true
      | some t => decide (now < t)))

/-- Tier resolution of auth.ts: UNLIMITED if an active `unlimited_member` is held,
else PRO if an active `pro_member` is held, else FREE. -/
def resolveTier (now : Int) (es : List EntRow) : MembershipTier :=
  let entitlementIds := (activeEntitlements now es).map EntRow.entitlementId
  if entitlementIds.contains "unlimited_member" then .UNLIMITED
  else if entitlementIds.contains "pro_member" then .PRO
  else .FREE

/-- The trial-cancelled test of auth.ts: any active entitlement with `isTrial = 1`
and `autoRenew = 0`. -/
def isTrialCancelled (now : Int) (es : List EntRow) : Bool :=
  (activeEntitlements now es).any (fun ent => ent.isTrial == 1 && ent.autoRenew == 0)

/-- The tier auth.ts attaches to the request and uses for the quota lookup: the
resolved tier, replaced by TRIAL_CANCELLED when the trial-cancelled overlay holds. -/
def effectiveTier (now : Int) (es : List EntRow) : MembershipTier :=
  if isTrialCancelled now es then .TRIAL_CANCELLED else resolveTier now es

/-! ## Admission control (src/middleware/auth.ts, quota-check portion) -/

/-- The quota bound that triggered a rejection, as named in the 429 message. -/
inductive QuotaBound
  | daily
  | monthly
  | total
deriving DecidableEq, Repr

/-- A terminal rejection response: HTTP status plus the bound its message names. -/
structure Rejection where
  status : Nat
  bound : QuotaBound
deriving DecidableEq, Repr

/-- The quota comparison chain of auth.ts, in source order: daily, then monthly,
then total (the latter only when the tier quota defines a total cap); a bound is
exceeded when `used >= limit`. -/
def checkRateLimit (limits : Quota) (usage : UsageStats) : Option Rejection :=
  if limits.daily ≤ usage.daily then some ⟨429, .daily⟩
  else if limits.monthly ≤ usage.monthly then some ⟨429, .monthly⟩
  else
    match limits.total with
    | some t => if t ≤ usage.total then some ⟨429, .total⟩ else none
    | none => none

/-- The DB string of a resource type (the `ResourceType` values of limits.ts). -/
def resourceTypeName : ResourceType → String
  | .text_translation => "text_translation"
  | .text_classify => "text_classify"
  | .image_translation => "image_translation"
  | .live_translation => "live_translation"
  | .tts => "tts"
  | .recognition => "recognition"

/-- The admission decision of auth.ts after authentication: resolve the effective
tier, map the path to a resource type, read usage (total only when the quota has a
total cap) and run the comparison chain. `none` means admitted. -/
def withAuthAdmission (st : LedgerState) (dbNow : DayMonth) (now : Int)
    (es : List EntRow) (userId pathname : String) : Option Rejection :=
  let resourceType := getResourceTypeFromUrl pathname
  let tier := effectiveTier now es
  let limits := TIER_LIMITS tier resourceType
  let usage := getUsageStats st dbNow userId (resourceTypeName resourceType)
    limits.total.isSome
  checkRateLimit limits usage

/-- A metered request as routed: `withAuth` first, and only on admission does the
handler perform its billable work and record usage. -/
def handleMeteredRequest (st : LedgerState) (dbNow : DayMonth) (now : Int)
    (es : List EntRow) (userId pathname : String) (args : UsageArgs) :
    Option Rejection × LedgerState :=
  match withAuthAdmission st dbNow now es userId pathname with
  | some rej => (some rej, st)
  | none =>
      (none, logUsage st dbNow userId args.model args.inputTokens args.outputTokens
        args.costMicros (resourceTypeName (getResourceTypeFromUrl pathname))
        args.requestHash args.durationSeconds)

/-! ## Quota inspection endpoint (src/controllers/user.ts, handleGetQuota) -/

/-- The identity-related fields of the quota endpoint response. -/
structure QuotaView where
  tier : MembershipTier
  membershipExpireAt : Option Int
  isTrialCancelledFlag : Bool
deriving DecidableEq, Repr

/-- The `tier === 'UNLIMITED' ? 'unlimited_member' : tier === 'PRO' ? 'pro_member'
: null` selection of handleGetQuota. -/
def definingEntitlementId : MembershipTier → Option String
  | .UNLIMITED => some "unlimited_member"
  | .PRO => some "pro_member"
  | _ => none

/-- handleGetQuota (identity part): start from the tier the middleware attached,
re-apply the trial-cancelled overlay, then look up the expiration date of the
entitlement that defines the (post-overlay) tier among the active rows; a missing
row, a null or a falsy (zero) expiresAt leave the expiration null. -/
def handleGetQuotaView (now : Int) (authTier : MembershipTier) (es : List EntRow) :
    QuotaView :=
  let active := activeEntitlements now es
  let itc := isTrialCancelled now es
  let tier := if itc then MembershipTier.TRIAL_CANCELLED else authTier
  let expire : Option Int :=
    match definingEntitlementId tier with
    | none => none
    | some d =>
        match active.find? (fun ent => ent.entitlementId == d) with
        | none => none
        | some ent =>
            match ent.expiresAt with
            | none => none
            | some t => if t = 0 then none else some t
  ⟨tier, expire, itc⟩

/-! ## Credit ledger: live-translation overage deduction

The tier-aware `logUsage` variant (10th `tier` argument) is called by the live
relay settlement and exercised by the credit tests, but its body is not among the
provided sources; its deduction step is modelled from the spec below. -/

/-- The per-period overflow of a usage event per the spec: zero when the updated
usage is still within the limit, the full duration when the prior usage had already
reached the limit, and the excess above the limit when this event crosses it. -/
def overflowPeriod (preUsage postUsage limit d : Nat) : Nat :=
  if postUsage ≤ limit then 0
  else if limit ≤ preUsage then d
  else postUsage - limit

/-- Modelled from the spec: the credit-deduction step of the tier-aware `logUsage`
(absent from the provided sources; spec §4.4 `settleOverage`).  After the
aggregates have been incremented it re-reads the updated daily and monthly usage,
computes each period's overflow against the supplied tier's live-translation
limits, deducts the larger overflow from the user's credit balance — allowing the
balance to go negative — and writes nothing when the deductible is zero or the
event has zero duration or a non-live resource type. -/
def logUsageWithTier (st : LedgerState) (balances : String → Option Int)
    (now : DayMonth) (userId model : String) (inputTokens outputTokens : Nat)
    (costMicros : Int) (endpoint : String) (requestHash : Option String)
    (durationSeconds : Option Nat) (tier : MembershipTier) :
    LedgerState × (String → Option Int) :=
  let st' := logUsage st now userId model inputTokens outputTokens costMicros endpoint
    requestHash durationSeconds
  let d := durationSeconds.getD 0
  if endpoint = "live_translation" ∧ 0 < d then
    let limits := TIER_LIMITS tier ResourceType.live_translation
    let post := getUsageStats st' now userId endpoint limits.total.isSome
    let deductible := max (overflowPeriod (post.daily - d) post.daily limits.daily d)
      (overflowPeriod (post.monthly - d) post.monthly limits.monthly d)
    if 0 < deductible then
      (st', fun u =>
        if u = userId then some ((balances userId).getD 0 - deductible)
        else balances u)
    else (st', balances)
  else (st', balances)

/-- Claim-side C1 formula: the deductible of a live event of duration `d` against
prior daily and monthly usage, as the larger of the two period overflows. -/
def claimDeductible (limits : Quota) (preDaily preMonthly d : Nat) : Nat :=
  max (overflowPeriod preDaily (preDaily + d) limits.daily d)
    (overflowPeriod preMonthly (preMonthly + d) limits.monthly d)

/-! ## Consumable credit purchases (src/controllers/revenuecat.ts,
handleConsumablePurchase) -/

/-- JS `a || b` on an optional string: null/undefined and the empty string fall
through to `b`. -/
def jsStrOr (a : Option String) (b : String) : String :=
  match a with
  | none => b
  | some s => if s = "" then b else s

/-- JS `a || b` on an optional number: null/undefined and zero fall through. -/
def jsIntOr (a : Option Int) (b : Int) : Int :=
  match a with
  | none => b
  | some v => if v = 0 then b else v

/-- One `credit_purchases` audit row. -/
structure PurchaseRow where
  id : String
  userId : String
  productId : String
  amountSeconds : Nat
  createdAt : Int
  source : String
deriving DecidableEq, Repr

/-- The purchase audit table plus the per-user `user_credits` balances. -/
structure CreditLedger where
  purchases : List PurchaseRow
  balances : String → Option Int

/-- The NON_RENEWING_PURCHASE event fields `handleConsumablePurchase` reads. -/
structure ConsumableEvent where
  id : String
  transactionId : Option String
  productId : String
  purchasedAtMs : Option Int
deriving DecidableEq, Repr

/-- The static product → seconds table of handleConsumablePurchase; unknown
products are ignored. -/
def productAmount (productId : String) : Option Nat :=
  if productId = "packages_499" then some 3600
  else if productId = "packages_1999" then some 36000
  else none

/-- `handleConsumablePurchase` from revenuecat.ts: resolve the transaction id
(`transaction_id || id`) and timestamp (`purchased_at_ms || Date.now()`), map the
product to seconds (unknown products: no-op), and if no purchase row with that id
exists yet, insert the audit row and additively upsert the balance.  A duplicate id
is a no-op that returns normally. -/
def handleConsumablePurchase (st : CreditLedger) (userId : String)
    (ev : ConsumableEvent) (now : Int) : CreditLedger :=
  let transactionId := jsStrOr ev.transactionId ev.id
  let purchasedAt := jsIntOr ev.purchasedAtMs now
  match productAmount ev.productId with
  | none => st
  | some amountSeconds =>
      if st.purchases.any (fun p => p.id == transactionId) then st
      else
        { purchases := st.purchases ++
            [⟨transactionId, userId, ev.productId, amountSeconds, purchasedAt,
              "revenuecat"⟩],
          balances := fun u =>
            if u = userId then some ((st.balances userId).getD 0 + amountSeconds)
            else st.balances u }

/-- The webhook route for a NON_RENEWING_PURCHASE delivery: run
handleConsumablePurchase and answer HTTP 200 (the duplicate no-op path also returns
normally, so it too yields 200). -/
def consumableWebhook (st : CreditLedger) (userId : String) (ev : ConsumableEvent)
    (now : Int) : CreditLedger × Nat :=
  (handleConsumablePurchase st userId ev now, 200)

/-! ## Entitlement webhook (src/controllers/revenuecat.ts,
handleRevenueCatWebhook, with upsertUserEntitlement from subscription.ts) -/

/-- One stored `user_entitlements` row (sans its composite key). -/
structure StoredEnt where
  expiresAt : Option Int
  status : String
  originalAppUserId : Option String
  isTrial : Nat
  autoRenew : Nat
deriving DecidableEq, Repr

/-- `upsertUserEntitlement` from subscription.ts: insert-or-overwrite the
(userId, entitlementId) row with the supplied values (last write wins). -/
def upsertUserEntitlement (store : String × String → Option StoredEnt)
    (userId entitlementId : String) (expiresAt : Option Int) (status : String)
    (originalAppUserId : Option String) (isTrial autoRenew : Bool) :
    String × String → Option StoredEnt :=
  fun k =>
    if k = (userId, entitlementId) then
      some ⟨expiresAt, status, originalAppUserId, if isTrial then 1 else 0,
        if autoRenew then 1 else 0⟩
    else store k

/-- The webhook event fields handleRevenueCatWebhook reads (absent arrays are
modelled as empty lists, matching the `|| []` and length guards). -/
structure RCEvent where
  type : String
  appUserId : Option String
  entitlementIds : List String
  expirationAtMs : Option Int
  periodType : Option String
  transferredFrom : List String
  transferredTo : List String
deriving DecidableEq, Repr

/-- JS truthiness on an optional string: undefined/null and the empty string are
falsy. -/
def jsTruthyStr : Option String → Option String
  | none => none
  | some s => if s = "" then none else some s

/-- The app_user_id resolution of the webhook: take the event's `app_user_id`, and
when it is falsy on a TRANSFER event with a nonempty `transferred_to`, recover it
from `transferred_to[0]`; a still-falsy identity yields none (HTTP 400). -/
def resolveAppUserId (ev : RCEvent) : Option String :=
  match jsTruthyStr ev.appUserId with
  | some s => some s
  | none =>
      if ev.type = "TRANSFER" ∧ ev.transferredTo ≠ [] then
        jsTruthyStr ev.transferredTo.head?
      else none

/-- The entitlement part of `handleRevenueCatWebhook`: resolve the identity (400
when missing), map it through the user directory (`findUserByCredential`, falling
back to the billing identity itself), then — when entitlement ids are present —
upsert each id to active/expired with trial and auto-renew bits derived from the
event, apply PRODUCT_CHANGE supersession, and for TRANSFER mark each transferred
entitlement `transferred` (expiry stamped `Date.now()`) for every source user.
Returns the new store and the HTTP status. -/
def handleRevenueCatWebhook (store : String × String → Option StoredEnt)
    (dir : String → Option String) (ev : RCEvent) (now : Int) :
    (String × String → Option StoredEnt) × Nat :=
  match resolveAppUserId ev with
  | none => (store, 400)
  | some appUserId =>
      let targetUserId := (dir appUserId).getD appUserId
      if ev.entitlementIds = [] then (store, 200)
      else
        let newStatus := if ev.type = "EXPIRATION" then "expired" else "active"
        let isTrial := ev.periodType == some "TRIAL"
        let autoRenew : Bool :=
          if ev.type = "CANCELLATION" ∨ ev.type = "EXPIRATION" then false else true
        let s1 := ev.entitlementIds.foldl
          (fun s entId => upsertUserEntitlement s targetUserId entId
            ev.expirationAtMs newStatus (some appUserId) isTrial autoRenew) store
        let s2 :=
          if ev.type = "PRODUCT_CHANGE" then
            if ev.entitlementIds.contains "unlimited_member" then
              upsertUserEntitlement
                (upsertUserEntitlement s1 targetUserId "pro_member" (some now)
                  "superseded" (some appUserId) false true)
                targetUserId "lite_member" (some now) "superseded" (some appUserId)
                false true
            else if ev.entitlementIds.contains "pro_member" then
              upsertUserEntitlement
                (upsertUserEntitlement s1 targetUserId "lite_member" (some now)
                  "superseded" (some appUserId) false true)
                targetUserId "unlimited_member" (some now) "superseded"
                (some appUserId) false true
            else if ev.entitlementIds.contains "lite_member" then
              upsertUserEntitlement
                (upsertUserEntitlement s1 targetUserId "pro_member" (some now)
                  "superseded" (some appUserId) false true)
                targetUserId "unlimited_member" (some now) "superseded"
                (some appUserId) false true
            else s1
          else s1
        let s3 :=
          if ev.type = "TRANSFER" ∧ ev.transferredFrom ≠ [] then
            ev.transferredFrom.foldl
              (fun s fromUserId => ev.entitlementIds.foldl
                (fun s entId => upsertUserEntitlement s fromUserId entId (some now)
                  "transferred" none false true) s) s2
          else s2
        (s3, 200)

/-! ## Live relay usage aggregation and cost (src/utils/cost.ts,
src/config/pricing.ts) -/

/-- One `{modality, tokenCount}` entry of a usage-metadata token breakdown. -/
structure ModalityDetail where
  modality : String
  tokenCount : Nat
deriving DecidableEq, Repr

/-- One `usageMetadata` object as intercepted from an upstream frame (absent
fields are `none`). -/
structure UsageMetadata where
  promptTokenCount : Option Nat
  candidatesTokenCount : Option Nat
  responseTokenCount : Option Nat
  thoughtsTokenCount : Option Nat
  promptTokensDetails : Option (List ModalityDetail)
  candidatesTokensDetails : Option (List ModalityDetail)
  responseTokensDetails : Option (List ModalityDetail)
deriving DecidableEq, Repr

/-- The per-modality accumulation of one details array (the if-chains of the
aggregation loop): total tokenCount of the entries with the given modality. -/
def sumTokens (modality : String) (details : List ModalityDetail) : Nat :=
  ((details.filter (fun d => d.modality == modality)).map
    ModalityDetail.tokenCount).sum

/-- JS `a || b` on optional numbers (0 is falsy). -/
def jsNatOr (a : Option Nat) (b : Nat) : Nat :=
  match a with
  | none => b
  | some v => if v = 0 then b else v

/-- JS `a || b` on optional arrays: any present array (even empty) is truthy. -/
def jsArrOr (a b : Option (List ModalityDetail)) : Option (List ModalityDetail) :=
  match a with
  | some l => some l
  | none => b

/-- The input side of a `CostBreakdown`. -/
structure InputTokens where
  total : Nat
  text : Nat
  image : Nat
  audio : Nat
  prompt : Nat
deriving DecidableEq, Repr

/-- The output side of a `CostBreakdown`. -/
structure OutputTokens where
  total : Nat
  image : Nat
  text : Nat
  audio : Nat
  thought : Nat
deriving DecidableEq, Repr

/-- A `CostBreakdown` from cost.ts. -/
structure CostBreakdown where
  cost : Int
  input : InputTokens
  output : OutputTokens
deriving DecidableEq, Repr

/-- `aggregateUsage` from cost.ts: the accumulation loop over every observed
usage snapshot, written as per-event sums — prompt counts and per-modality detail
counts on the input side (detail-less events fall back to counting the prompt
total as text), and candidates-details (falling back to response-details, then the
scalar counts) plus thought tokens on the output side.  The returned `cost` field
is 0, as in the source. -/
def aggregateUsage (events : List UsageMetadata) : CostBreakdown :=
  let inputPrompt := (events.map (fun e => e.promptTokenCount.getD 0)).sum
  let inputText := (events.map (fun e =>
    match e.promptTokensDetails with
    | some d => sumTokens "TEXT" d
    | none => e.promptTokenCount.getD 0)).sum
  let inputAudio := (events.map (fun e =>
    match e.promptTokensDetails with
    | some d => sumTokens "AUDIO" d
    | none => 0)).sum
  let inputImage := (events.map (fun e =>
    match e.promptTokensDetails with
    | some d => sumTokens "IMAGE" d
    | none => 0)).sum
  let outText := (events.map (fun e =>
    match jsArrOr e.candidatesTokensDetails e.responseTokensDetails with
    | some d => sumTokens "TEXT" d
    | none => jsNatOr e.candidatesTokenCount (e.responseTokenCount.getD 0))).sum
  let outAudio := (events.map (fun e =>
    match jsArrOr e.candidatesTokensDetails e.responseTokensDetails with
    | some d => sumTokens "AUDIO" d
    | none => 0)).sum
  let outImage := (events.map (fun e =>
    match jsArrOr e.candidatesTokensDetails e.responseTokensDetails with
    | some d => sumTokens "IMAGE" d
    | none => 0)).sum
  let outThought := (events.map (fun e => e.thoughtsTokenCount.getD 0)).sum
  ⟨0, ⟨inputPrompt, inputText, inputImage, inputAudio, inputPrompt⟩,
    ⟨outText + outAudio + outImage + outThought, outImage, outText, outAudio,
      outThought⟩⟩

/-- A `LiveApiPrice` row of PRICING_PER_1M_LIVE (per-token prices, exact
rationals). -/
structure LiveApiPrice where
  text_input : ℚ
  text_output : ℚ
  audio_input : ℚ
  audio_output : ℚ
deriving DecidableEq, Repr

/-- `PRICING_PER_1M_LIVE` from pricing.ts. -/
def PRICING_PER_1M_LIVE : String → Option LiveApiPrice := fun name =>
  if name = "gemini-2.5-flash-native-audio-preview-12-2025" then
    some ⟨1/2, 3, 3, 12⟩
  else if name = "gemini-2.5-flash-preview-tts" then
    some ⟨3/40, 0, 0, 12⟩
  else none

/-- `calculateCostFromBreakdown` from cost.ts: unknown model prices to 0;
otherwise text-and-prompt input tokens at the text-input price plus audio input,
and text-and-thought output plus audio output, rounded up to an integer. -/
def calculateCostFromBreakdown (modelName : String) (breakdown : CostBreakdown)
    (pricingMap : String → Option LiveApiPrice) : Int :=
  match pricingMap modelName with
  | none => 0
  | some pricing =>
      let inputCost : ℚ :=
        ((breakdown.input.text : ℚ) + (breakdown.input.prompt : ℚ)) *
            pricing.text_input +
          (breakdown.input.audio : ℚ) * pricing.audio_input
      let outputCost : ℚ :=
        ((breakdown.output.text : ℚ) + (breakdown.output.thought : ℚ)) *
            pricing.text_output +
          (breakdown.output.audio : ℚ) * pricing.audio_output
      Int.ceil (inputCost + outputCost)

/-! ## Live relay settlement (src/controllers/translation.ts, closeHandler) -/

/-- The live model key used for pricing. -/
def liveModelName : String := "gemini-2.5-flash-native-audio-preview-12-2025"

/-- The arguments of the one `logUsage` call a settlement issues. -/
structure LiveSettlement where
  userId : String
  model : String
  audioInputTokens : Nat
  audioOutputTokens : Nat
  costMicros : Int
  durationSeconds : Nat
  tier : MembershipTier
deriving DecidableEq, Repr

/-- The per-session constants captured at connection time: start timestamp (ms),
identity, the tier resolved at admission, and the usage snapshots collected from
upstream frames over the session (`allUsageEvents`). -/
structure RelaySession where
  startTime : Int
  userId : String
  tier : MembershipTier
  snapshots : List UsageMetadata
deriving DecidableEq, Repr

/-- The mutable close-path state: the `logged` guard flag and the usage events
written so far. -/
structure RelayState where
  logged : Bool
  written : List LiveSettlement
deriving DecidableEq, Repr

/-- `closeHandler` from translation.ts, invoked with the current time: return
immediately when already logged, else set the flag, aggregate all observed
snapshots, and when the aggregate is non-zero and the computed cost positive,
write one live_translation usage event whose duration is the elapsed wall-clock
milliseconds divided by 1000 rounded up. -/
def closeHandler (sess : RelaySession) (st : RelayState) (t : Int) : RelayState :=
  if st.logged then st
  else
    let compiledUsage := aggregateUsage sess.snapshots
    if 0 < compiledUsage.input.total ∨ 0 < compiledUsage.output.total then
      let cost := calculateCostFromBreakdown liveModelName compiledUsage
        PRICING_PER_1M_LIVE
      if 0 < cost then
        let durationSeconds := (Int.ceil (((t - sess.startTime : Int) : ℚ) / 1000)).toNat
        ⟨true, st.written ++
          [⟨sess.userId, liveModelName, compiledUsage.input.audio,
            compiledUsage.output.audio, cost, durationSeconds, sess.tier⟩]⟩
      else ⟨true, st.written⟩
    else ⟨true, st.written⟩

/-- The four terminating events; close and error listeners on either socket all
invoke the same `closeHandler`. -/
inductive RelayTrigger
  | callerClose
  | upstreamClose
  | callerError
  | upstreamError
deriving DecidableEq, Repr

/-- Run a sequence of timestamped terminating events against a fresh session
state (flag down, nothing written). -/
def runTriggers (sess : RelaySession) (ts : List (RelayTrigger × Int)) : RelayState :=
  ts.foldl (fun st p => closeHandler sess st p.2) ⟨false, []⟩

/-! ## Relay caller-frame filtering (src/controllers/translation.ts, the
caller-side message listener) -/

/-- A JSON value (`JSON.parse` result). -/
inductive JValue
  | null
  | bool (b : Bool)
  | num (q : ℚ)
  | str (s : String)
  | arr (elems : List JValue)
  | obj (fields : List (String × JValue))

/-- Property lookup on parsed-JSON object fields; a duplicate key keeps the last
occurrence, as `JSON.parse` does. -/
def lookupField (name : String) : List (String × JValue) → Option JValue
  | [] => none
  | (k, v) :: rest =>
      match lookupField name rest with
      | some v' => some v'
      | none => if k = name then some v else none

/-- JS property access `json.setup`: a defined value only on objects that carry
the field. -/
def getField (j : JValue) (name : String) : Option JValue :=
  match j with
  | .obj fields => lookupField name fields
  | _ => none

/-- JS truthiness of a JSON value: null, false, 0 and the empty string are falsy;
arrays and objects (even empty) are truthy. -/
def jsTruthy : JValue → Bool
  | .null => false
  | .bool b => b
  | .num q => decide (q ≠ 0)
  | .str s => decide (s ≠ "")
  | .arr _ => true
  | .obj _ => true

/-- A frame arriving on the caller socket: a string frame together with its
`JSON.parse` outcome (`none` when parsing throws), or a binary frame. -/
inductive ClientFrame
  | strFrame (raw : String) (parsed : Option JValue)
  | binFrame (bytes : List Nat)

/-- What the caller-side listener does with the frame. -/
inductive ForwardAction
  | dropFrame
  | forwardFrame (f : ClientFrame)

/-- The caller-side message listener of handleTranslation: a string frame that
parses to a value with a truthy `setup` property is dropped; every other frame
(binary, unparseable, or without a truthy setup) is sent upstream unchanged. -/
def clientMessageHandler (f : ClientFrame) : ForwardAction :=
  match f with
  | .binFrame _ => .forwardFrame f
  | .strFrame _ parsed =>
      match parsed with
      | none => .forwardFrame f
      | some json =>
          match getField json "setup" with
          | some v => if jsTruthy v then .dropFrame else .forwardFrame f
          | none => .forwardFrame f

/-! ## Theorems -/

/-- Auxiliary: the loop agrees with find?-based first-match semantics on any table. -/
theorem lookupEndpointType_eq_find (pathname : String) (l : List (String × ResourceType)) :
    lookupEndpointType pathname l =
      ((l.find? (fun e => strIncludes pathname e.1)).map Prod.snd).getD
        ResourceType.text_translation := by
  induction l with
  | nil => rfl
  | cons e rest ih =>
      by_cases h : strIncludes pathname e.1
      · simp [lookupEndpointType, List.find?, h]
      · simp only [lookupEndpointType, List.find?] at *
        simp [h, ih]

/-- Auxiliary: `x || null` then `|| 0` round-trips to `x || 0`. -/
theorem jsOrNull_getD (d : Option Nat) : (jsOrNull d).getD 0 = d.getD 0 := by
  unfold jsOrNull
  split_ifs with h
  · simp [h]
  · rfl

/-- Auxiliary: the count of an upserted row is the previous (or zero) plus one. -/
theorem incrAgg_count (r : Option AggRow) (d t : Nat) :
    (incrAgg r d t).count = ((r.map AggRow.count).getD 0) + 1 := by
  cases r <;> rfl

/-- Auxiliary: the duration of an upserted row is the previous (or zero) plus the delta. -/
theorem incrAgg_duration (r : Option AggRow) (d t : Nat) :
    (incrAgg r d t).durationSeconds = ((r.map AggRow.durationSeconds).getD 0) + d := by
  cases r <;> simp [incrAgg]

/-- Auxiliary: the tokens of an upserted row are the previous (or zero) plus the delta. -/
theorem incrAgg_tokens (r : Option AggRow) (d t : Nat) :
    (incrAgg r d t).totalTokens = ((r.map AggRow.totalTokens).getD 0) + t := by
  cases r <;> simp [incrAgg]

/-- Auxiliary: the freshly inserted audit row is accounted for exactly by the three
aggregate keys `logUsage` touches. -/
theorem matchesKey_mkUsageRow_iff (k : AggKey) (now : DayMonth) (u model : String)
    (it ot : Nat) (cm : Int) (ep : String) (rh : Option String) (ds : Option Nat) :
    matchesKey k (mkUsageRow now u model it ot cm ep rh ds) = true ↔
      (k = ⟨u, ep, "daily", now.daily⟩ ∨ k = ⟨u, ep, "monthly", now.monthly⟩ ∨
        k = ⟨u, ep, "total", "total"⟩) := by
  obtain ⟨ku, ke, kt, kv⟩ := k
  simp only [matchesKey, periodMatches, mkUsageRow, Bool.and_eq_true, beq_iff_eq,
    AggKey.mk.injEq]
  split_ifs with h1 h2 h3 <;> simp_all <;> tauto

/-- Auxiliary: pointwise effect of one `logUsage` on the aggregate table — the three
touched keys are additively incremented and every other key is untouched. -/
theorem logUsage_aggregates (st : LedgerState) (now : DayMonth) (u model : String)
    (it ot : Nat) (cm : Int) (ep : String) (rh : Option String) (ds : Option Nat)
    (k : AggKey) :
    (logUsage st now u model it ot cm ep rh ds).aggregates k =
      if k = ⟨u, ep, "daily", now.daily⟩ ∨ k = ⟨u, ep, "monthly", now.monthly⟩ ∨
          k = ⟨u, ep, "total", "total"⟩ then
        some (incrAgg (st.aggregates k) (ds.getD 0) (it + ot))
      else st.aggregates k := by
  have hdm : (⟨u, ep, "daily", now.daily⟩ : AggKey) ≠ ⟨u, ep, "monthly", now.monthly⟩ := by
    simp [AggKey.mk.injEq]
  have hdt : (⟨u, ep, "daily", now.daily⟩ : AggKey) ≠ ⟨u, ep, "total", "total"⟩ := by
    simp [AggKey.mk.injEq]
  have hmt : (⟨u, ep, "monthly", now.monthly⟩ : AggKey) ≠ ⟨u, ep, "total", "total"⟩ := by
    simp [AggKey.mk.injEq]
  simp only [logUsage, upsertAgg]
  by_cases h1 : k = ⟨u, ep, "daily", now.daily⟩
  · subst h1
    simp [hdm, hdt, Ne.symm hdm, Ne.symm hdt]
  · by_cases h2 : k = ⟨u, ep, "monthly", now.monthly⟩
    · subst h2
      simp [hmt, Ne.symm hmt, h1, Ne.symm h1]
    · by_cases h3 : k = ⟨u, ep, "total", "total"⟩
      · subst h3
        simp [h1, h2]
      · simp [h1, h2, h3]

/-- Auxiliary: the ledger invariant is preserved by one `logUsage`. -/
theorem aggInv_logUsage (st : LedgerState) (now : DayMonth) (u model : String)
    (it ot : Nat) (cm : Int) (ep : String) (rh : Option String) (ds : Option Nat)
    (h : AggInv st) : AggInv (logUsage st now u model it ot cm ep rh ds) := by
  intro k
  have hev : eventsFor (logUsage st now u model it ot cm ep rh ds) k =
      eventsFor st k ++
        (if matchesKey k (mkUsageRow now u model it ot cm ep rh ds) then
          [mkUsageRow now u model it ot cm ep rh ds] else []) := by
    simp only [eventsFor, logUsage, List.filter_append, List.filter_cons,
      List.filter_nil]
  by_cases hm : matchesKey k (mkUsageRow now u model it ot cm ep rh ds) = true
  · have hk := (matchesKey_mkUsageRow_iff k now u model it ot cm ep rh ds).mp hm
    have hagg := logUsage_aggregates st now u model it ot cm ep rh ds k
    rw [if_pos hk] at hagg
    rw [hagg, hev, if_pos hm]
    obtain ⟨h1, h2, h3⟩ := h k
    refine ⟨?_, ?_, ?_⟩
    · simp [incrAgg_count, h1]
    · simp [incrAgg_duration, h2, eventDuration, mkUsageRow, jsOrNull_getD]
    · simp [incrAgg_tokens, h3, eventTokens, mkUsageRow]
  · have hk : ¬(k = ⟨u, ep, "daily", now.daily⟩ ∨ k = ⟨u, ep, "monthly", now.monthly⟩ ∨
        k = ⟨u, ep, "total", "total"⟩) := by
      intro hc
      exact hm ((matchesKey_mkUsageRow_iff k now u model it ot cm ep rh ds).mpr hc)
    have hagg := logUsage_aggregates st now u model it ot cm ep rh ds k
    rw [if_neg hk] at hagg
    rw [hagg, hev, if_neg hm]
    simpa using h k

/-- Auxiliary: the empty ledger satisfies the invariant. -/
theorem aggInv_empty : AggInv emptyLedger := by
  intro k
  refine ⟨rfl, rfl, rfl⟩

/-- Auxiliary: the invariant is preserved by any call sequence. -/
theorem aggInv_applyCalls (st : LedgerState) (cs : List FullCall) (h : AggInv st) :
    AggInv (applyCalls st cs) := by
  induction cs generalizing st with
  | nil => exact h
  | cons c rest ih =>
      exact ih _ (aggInv_logUsage _ _ _ _ _ _ _ _ _ _ h)

/-- Auxiliary: the audit log after a call sequence is the appended rows in order. -/
theorem applyCalls_usageLogs (st : LedgerState) (cs : List FullCall) :
    (applyCalls st cs).usageLogs = st.usageLogs ++ cs.map callRow := by
  induction cs generalizing st with
  | nil => simp [applyCalls]
  | cons c rest ih =>
      show (applyCalls (applyCall st c) rest).usageLogs = _
      rw [ih]
      simp [applyCall, logUsage, callRow]

/-- C8: after N usage recordings for the same (user, resourceType) within one UTC
day (from a fresh ledger), `getUsageStats` returns daily = N for count-metered
resource types and daily = the sum of the recorded durationSeconds for
live_translation; each recording performs exactly three additive aggregate upserts
(the daily, monthly and total keys, every other key untouched), and every aggregate
row equals the sum of the matching usage events. -/
theorem c8_usage_aggregates (now : DayMonth) (u e : String) (cs : List FullCall)
    (hsame : ∀ c ∈ cs, c.now = now ∧ c.userId = u ∧ c.endpoint = e) :
    ((getUsageStats (applyCalls emptyLedger cs) now u e false).daily =
      if e = "live_translation" then
        (cs.map (fun c => c.args.durationSeconds.getD 0)).sum
      else cs.length) ∧
    (∀ (st : LedgerState) (c : FullCall),
      ((applyCall st c).aggregates ⟨c.userId, c.endpoint, "daily", c.now.daily⟩ =
        some (incrAgg (st.aggregates ⟨c.userId, c.endpoint, "daily", c.now.daily⟩)
          (c.args.durationSeconds.getD 0) (c.args.inputTokens + c.args.outputTokens))) ∧
      ((applyCall st c).aggregates ⟨c.userId, c.endpoint, "monthly", c.now.monthly⟩ =
        some (incrAgg (st.aggregates ⟨c.userId, c.endpoint, "monthly", c.now.monthly⟩)
          (c.args.durationSeconds.getD 0) (c.args.inputTokens + c.args.outputTokens))) ∧
      ((applyCall st c).aggregates ⟨c.userId, c.endpoint, "total", "total"⟩ =
        some (incrAgg (st.aggregates ⟨c.userId, c.endpoint, "total", "total"⟩)
          (c.args.durationSeconds.getD 0) (c.args.inputTokens + c.args.outputTokens))) ∧
      (∀ k : AggKey, k ≠ ⟨c.userId, c.endpoint, "daily", c.now.daily⟩ →
        k ≠ ⟨c.userId, c.endpoint, "monthly", c.now.monthly⟩ →
        k ≠ ⟨c.userId, c.endpoint, "total", "total"⟩ →
        (applyCall st c).aggregates k = st.aggregates k)) ∧
    AggInv (applyCalls emptyLedger cs) := by
  have hInv : AggInv (applyCalls emptyLedger cs) :=
    aggInv_applyCalls emptyLedger cs aggInv_empty
  have hlogs : (applyCalls emptyLedger cs).usageLogs = cs.map callRow := by
    simpa [emptyLedger] using applyCalls_usageLogs emptyLedger cs
  have hev : eventsFor (applyCalls emptyLedger cs) ⟨u, e, "daily", now.daily⟩ =
      cs.map callRow := by
    rw [eventsFor, hlogs, List.filter_eq_self]
    intro r hr
    obtain ⟨c, hc, rfl⟩ := List.mem_map.mp hr
    obtain ⟨h1, h2, h3⟩ := hsame c hc
    apply (matchesKey_mkUsageRow_iff _ _ _ _ _ _ _ _ _ _).mpr
    left
    simp [h1, h2, h3]
  refine ⟨?_, ?_, hInv⟩
  · obtain ⟨hcnt, hdur, _⟩ := hInv ⟨u, e, "daily", now.daily⟩
    by_cases he : e = "live_translation"
    · rw [if_pos he]
      have hb : (e == "live_translation") = true := by simp [he]
      have hval : ∀ o : Option AggRow,
          (o.map (aggValue (e == "live_translation"))).getD 0 =
            (o.map AggRow.durationSeconds).getD 0 := by
        intro o
        cases o <;> simp [aggValue, hb]
      show ((((applyCalls emptyLedger cs).aggregates
          ⟨u, e, "daily", now.daily⟩).map (aggValue (e == "live_translation"))).getD 0) = _
      rw [hval, hdur, hev]
      simp [List.map_map, Function.comp_def, eventDuration, callRow, mkUsageRow,
        jsOrNull_getD]
    · rw [if_neg he]
      have hb : (e == "live_translation") = false := by
        simpa using he
      have hval : ∀ o : Option AggRow,
          (o.map (aggValue (e == "live_translation"))).getD 0 =
            (o.map AggRow.count).getD 0 := by
        intro o
        cases o <;> simp [aggValue, hb]
      show ((((applyCalls emptyLedger cs).aggregates
          ⟨u, e, "daily", now.daily⟩).map (aggValue (e == "live_translation"))).getD 0) = _
      rw [hval, hcnt, hev]
      simp
  · intro st c
    have hd := logUsage_aggregates st c.now c.userId c.args.model c.args.inputTokens
      c.args.outputTokens c.args.costMicros c.endpoint c.args.requestHash
      c.args.durationSeconds ⟨c.userId, c.endpoint, "daily", c.now.daily⟩
    have hmo := logUsage_aggregates st c.now c.userId c.args.model c.args.inputTokens
      c.args.outputTokens c.args.costMicros c.endpoint c.args.requestHash
      c.args.durationSeconds ⟨c.userId, c.endpoint, "monthly", c.now.monthly⟩
    have ht := logUsage_aggregates st c.now c.userId c.args.model c.args.inputTokens
      c.args.outputTokens c.args.costMicros c.endpoint c.args.requestHash
      c.args.durationSeconds ⟨c.userId, c.endpoint, "total", "total"⟩
    rw [if_pos (Or.inl rfl)] at hd
    rw [if_pos (Or.inr (Or.inl rfl))] at hmo
    rw [if_pos (Or.inr (Or.inr rfl))] at ht
    refine ⟨hd, hmo, ht, ?_⟩
    intro k hk1 hk2 hk3
    have hk := logUsage_aggregates st c.now c.userId c.args.model c.args.inputTokens
      c.args.outputTokens c.args.costMicros c.endpoint c.args.requestHash
      c.args.durationSeconds k
    rwa [if_neg (by tauto)] at hk

/-- C8 witness: two live recordings of 300 s and 400 s on the same UTC day yield a
daily reading of 700 s. -/
theorem c8_usage_aggregates_witness :
    (∀ c ∈ ([⟨⟨"2026-01-01", "2026-01"⟩, "u1", "live_translation",
          ⟨"m", 0, 0, 0, none, some 300⟩⟩,
        ⟨⟨"2026-01-01", "2026-01"⟩, "u1", "live_translation",
          ⟨"m", 0, 0, 0, none, some 400⟩⟩] : List FullCall),
      c.now = ⟨"2026-01-01", "2026-01"⟩ ∧ c.userId = "u1" ∧
        c.endpoint = "live_translation") ∧
    (getUsageStats
        (applyCalls emptyLedger
          [⟨⟨"2026-01-01", "2026-01"⟩, "u1", "live_translation",
            ⟨"m", 0, 0, 0, none, some 300⟩⟩,
          ⟨⟨"2026-01-01", "2026-01"⟩, "u1", "live_translation",
            ⟨"m", 0, 0, 0, none, some 400⟩⟩])
        ⟨"2026-01-01", "2026-01"⟩ "u1" "live_translation" false).daily = 700 := by
  refine ⟨by decide, ?_⟩
  have h := (c8_usage_aggregates ⟨"2026-01-01", "2026-01"⟩ "u1" "live_translation"
    [⟨⟨"2026-01-01", "2026-01"⟩, "u1", "live_translation",
        ⟨"m", 0, 0, 0, none, some 300⟩⟩,
      ⟨⟨"2026-01-01", "2026-01"⟩, "u1", "live_translation",
        ⟨"m", 0, 0, 0, none, some 400⟩⟩] (by decide)).1
  simpa using h

/-- C10: `getResourceTypeFromUrl` is total and returns the mapped type of the first
entry of the endpoint table (in declaration order) whose path key occurs as a
substring of the pathname, defaulting to text_translation when no entry matches, so
an unmapped path is metered as text_translation. -/
theorem getResourceTypeFromUrl_first_match_or_default (pathname : String) :
    getResourceTypeFromUrl pathname =
      (firstMatchingEndpointType pathname).getD ResourceType.text_translation ∧
    (firstMatchingEndpointType pathname = none →
      getResourceTypeFromUrl pathname = ResourceType.text_translation) := by
  constructor
  · exact lookupEndpointType_eq_find pathname ENDPOINT_TYPE_MAP
  · intro h
    show lookupEndpointType pathname ENDPOINT_TYPE_MAP = _
    rw [lookupEndpointType_eq_find pathname ENDPOINT_TYPE_MAP]
    simp only [firstMatchingEndpointType] at h
    rw [h]
    rfl

/-- C3: the admission check evaluates the bounds in the fixed order daily, monthly,
total (total only when the quota defines a cap), rejects with status 429 naming the
first bound for which `used >= limit` (inclusive), admits exactly when no bound is
reached, and a rejected request records no usage. -/
theorem admission_first_bound_429 (limits : Quota) (usage : UsageStats) :
    (∀ rej, checkRateLimit limits usage = some rej → rej.status = 429) ∧
    (checkRateLimit limits usage = some ⟨429, .daily⟩ ↔ limits.daily ≤ usage.daily) ∧
    (checkRateLimit limits usage = some ⟨429, .monthly⟩ ↔
      usage.daily < limits.daily ∧ limits.monthly ≤ usage.monthly) ∧
    (checkRateLimit limits usage = some ⟨429, .total⟩ ↔
      usage.daily < limits.daily ∧ usage.monthly < limits.monthly ∧
      ∃ t, limits.total = some t ∧ t ≤ usage.total) ∧
    (checkRateLimit limits usage = none ↔
      usage.daily < limits.daily ∧ usage.monthly < limits.monthly ∧
      ∀ t, limits.total = some t → usage.total < t) ∧
    (∀ (st : LedgerState) (dbNow : DayMonth) (now : Int) (es : List EntRow)
        (userId pathname : String) (args : UsageArgs) (rej : Rejection),
      withAuthAdmission st dbNow now es userId pathname = some rej →
      handleMeteredRequest st dbNow now es userId pathname args = (some rej, st)) := by
  obtain ⟨ld, lm, lt⟩ := limits
  obtain ⟨ud, um, ut⟩ := usage
  refine ⟨?_, ?_, ?_, ?_, ?_, ?_⟩
  · intro rej h
    cases lt <;> simp only [checkRateLimit] at h <;> split_ifs at h <;>
      (try cases h) <;> simp_all
  · cases lt <;> simp only [checkRateLimit] <;> split_ifs <;> simp_all
  · cases lt <;> simp only [checkRateLimit] <;> split_ifs <;> simp_all
  · cases lt <;> simp only [checkRateLimit] <;> split_ifs <;> simp_all
  · cases lt <;> simp only [checkRateLimit] <;> split_ifs <;> simp_all
  · intro st dbNow now es userId pathname args rej h
    simp [handleMeteredRequest, h]

/-- C3 witness: with a daily limit of 600 (and room on the other bounds), 599 prior
uses are admitted and 600 prior uses are rejected on the daily bound with 429; a
rejected metered request leaves the ledger unchanged. -/
theorem admission_first_bound_429_witness :
    checkRateLimit ⟨600, 600, some 600⟩ ⟨599, 599, 599⟩ = none ∧
    checkRateLimit ⟨600, 600, some 600⟩ ⟨600, 600, 600⟩ = some ⟨429, .daily⟩ := by
  constructor
  · exact (admission_first_bound_429 ⟨600, 600, some 600⟩ ⟨599, 599, 599⟩).2.2.2.2.1.mpr
      ⟨by decide, by decide, by intro t ht; injection ht with h; subst h; decide⟩
  · exact (admission_first_bound_429 ⟨600, 600, some 600⟩ ⟨600, 600, 600⟩).2.1.mpr
      (by decide)

/-- C4 (divergence witness): tier resolution in the middleware checks only
`unlimited_member` and `pro_member` — a user holding only an active `lite_member`
resolves to FREE, not LITE (the repository's limits table and its lite-membership
test expect LITE); holding active `pro_member` and `unlimited_member` resolves to
UNLIMITED and no tier-defining entitlement resolves to FREE as claimed. -/
theorem resolveTier_lite_member_gives_free :
    resolveTier 1000 [⟨"lite_member", "active", some 2000, 0, 1⟩] = .FREE ∧
    resolveTier 1000 [⟨"pro_member", "active", some 2000, 0, 1⟩,
      ⟨"unlimited_member", "active", some 2000, 0, 1⟩] = .UNLIMITED ∧
    resolveTier 1000 [⟨"lite_member", "expired", some 2000, 0, 1⟩] = .FREE := by
  refine ⟨by decide, by decide, by decide⟩

/-- C5 counterexample: a user whose only entitlement is an active `pro_member` with
`isTrial = 1`, `autoRenew = 0` and expiresAt 5000 gets quota-view tier
TRIAL_CANCELLED but `membership_expire_at = null` — not the underlying pro
entitlement's 5000 as the claim states. -/
theorem quota_view_overlay_hides_expiry_counterexample :
    (handleGetQuotaView 1000
        (effectiveTier 1000 [⟨"pro_member", "active", some 5000, 1, 0⟩])
        [⟨"pro_member", "active", some 5000, 1, 0⟩]).tier =
      MembershipTier.TRIAL_CANCELLED ∧
    (handleGetQuotaView 1000
        (effectiveTier 1000 [⟨"pro_member", "active", some 5000, 1, 0⟩])
        [⟨"pro_member", "active", some 5000, 1, 0⟩]).membershipExpireAt = none := by
  refine ⟨by decide, by decide⟩

/-- C5 amended: whenever some active entitlement has isTrial set and autoRenew
cleared, the effective tier used for quota lookups — in admission control and in
the quota endpoint — is TRIAL_CANCELLED with its own limit table, the endpoint
reports `is_trial_cancelled = true`, and its `membership_expire_at` is null (the
defining-entitlement lookup keys off the post-overlay tier, so the overlay
suppresses the underlying entitlement's expiration date). -/
theorem quota_view_trial_cancelled_overlay (now : Int) (es : List EntRow)
    (authTier : MembershipTier) (h : isTrialCancelled now es = true) :
    effectiveTier now es = .TRIAL_CANCELLED ∧
    (∀ (st : LedgerState) (dbNow : DayMonth) (userId pathname : String),
      withAuthAdmission st dbNow now es userId pathname =
        checkRateLimit (TIER_LIMITS .TRIAL_CANCELLED (getResourceTypeFromUrl pathname))
          (getUsageStats st dbNow userId
            (resourceTypeName (getResourceTypeFromUrl pathname))
            (TIER_LIMITS .TRIAL_CANCELLED (getResourceTypeFromUrl pathname)).total.isSome)) ∧
    (handleGetQuotaView now authTier es).tier = .TRIAL_CANCELLED ∧
    (handleGetQuotaView now authTier es).isTrialCancelledFlag = true ∧
    (handleGetQuotaView now authTier es).membershipExpireAt = none := by
  have heff : effectiveTier now es = .TRIAL_CANCELLED := by
    simp [effectiveTier, h]
  refine ⟨heff, ?_, ?_, ?_, ?_⟩
  · intro st dbNow userId pathname
    simp [withAuthAdmission, heff]
  · simp [handleGetQuotaView, h]
  · exact h
  · simp [handleGetQuotaView, h, definingEntitlementId]

/-- C5 witness: the amended statement at the concrete cancelled-trial pro user. -/
theorem quota_view_trial_cancelled_overlay_witness :
    isTrialCancelled 1000 [⟨"pro_member", "active", some 5000, 1, 0⟩] = true ∧
    effectiveTier 1000 [⟨"pro_member", "active", some 5000, 1, 0⟩] =
      .TRIAL_CANCELLED ∧
    (handleGetQuotaView 1000 MembershipTier.PRO
        [⟨"pro_member", "active", some 5000, 1, 0⟩]).membershipExpireAt = none := by
  refine ⟨by decide, ?_, ?_⟩
  · exact (quota_view_trial_cancelled_overlay 1000
      [⟨"pro_member", "active", some 5000, 1, 0⟩] MembershipTier.PRO (by decide)).1
  · exact (quota_view_trial_cancelled_overlay 1000
      [⟨"pro_member", "active", some 5000, 1, 0⟩] MembershipTier.PRO (by decide)).2.2.2.2

/-- Auxiliary: one live `logUsage` raises the daily and monthly readings by the
event's duration. -/
theorem getUsageStats_logUsage_live (st : LedgerState) (now : DayMonth)
    (userId model : String) (it ot : Nat) (cm : Int) (rh : Option String)
    (ds : Option Nat) (b b' : Bool) :
    (getUsageStats (logUsage st now userId model it ot cm "live_translation" rh ds)
        now userId "live_translation" b).daily =
      (getUsageStats st now userId "live_translation" b').daily + ds.getD 0 ∧
    (getUsageStats (logUsage st now userId model it ot cm "live_translation" rh ds)
        now userId "live_translation" b).monthly =
      (getUsageStats st now userId "live_translation" b').monthly + ds.getD 0 := by
  have hd := logUsage_aggregates st now userId model it ot cm "live_translation" rh ds
    ⟨userId, "live_translation", "daily", now.daily⟩
  have hm := logUsage_aggregates st now userId model it ot cm "live_translation" rh ds
    ⟨userId, "live_translation", "monthly", now.monthly⟩
  rw [if_pos (Or.inl rfl)] at hd
  rw [if_pos (Or.inr (Or.inl rfl))] at hm
  constructor
  · simp only [getUsageStats]
    rw [hd]
    cases st.aggregates ⟨userId, "live_translation", "daily", now.daily⟩ <;>
      simp [aggValue, incrAgg]
  · simp only [getUsageStats]
    rw [hm]
    cases st.aggregates ⟨userId, "live_translation", "monthly", now.monthly⟩ <;>
      simp [aggValue, incrAgg]

/-- C1: a tier-supplied live recording of positive duration increments the daily
aggregate by the duration and then decrements the credit balance by exactly
`max(overflow(daily), overflow(monthly))` computed against the supplied tier's
live-translation limits from the prior usage — even into a negative balance — and
leaves the balances untouched when that deductible is zero. -/
theorem live_overage_deduction (st : LedgerState) (balances : String → Option Int)
    (now : DayMonth) (userId model : String) (it ot : Nat) (cm : Int)
    (rh : Option String) (ds : Option Nat) (tier : MembershipTier)
    (hd : 0 < ds.getD 0) :
    ((getUsageStats (logUsageWithTier st balances now userId model it ot cm
        "live_translation" rh ds tier).1 now userId "live_translation" true).daily =
      (getUsageStats st now userId "live_translation" true).daily + ds.getD 0) ∧
    (0 < claimDeductible (TIER_LIMITS tier .live_translation)
        (getUsageStats st now userId "live_translation" true).daily
        (getUsageStats st now userId "live_translation" true).monthly (ds.getD 0) →
      (logUsageWithTier st balances now userId model it ot cm "live_translation" rh
          ds tier).2 userId =
        some ((balances userId).getD 0 -
          claimDeductible (TIER_LIMITS tier .live_translation)
            (getUsageStats st now userId "live_translation" true).daily
            (getUsageStats st now userId "live_translation" true).monthly (ds.getD 0))) ∧
    (claimDeductible (TIER_LIMITS tier .live_translation)
        (getUsageStats st now userId "live_translation" true).daily
        (getUsageStats st now userId "live_translation" true).monthly (ds.getD 0) = 0 →
      (logUsageWithTier st balances now userId model it ot cm "live_translation" rh
          ds tier).2 = balances) := by
  have hpost := getUsageStats_logUsage_live st now userId model it ot cm rh ds
    (TIER_LIMITS tier ResourceType.live_translation).total.isSome true
  have hded :
      max (overflowPeriod
          ((getUsageStats (logUsage st now userId model it ot cm "live_translation"
              rh ds) now userId "live_translation"
              (TIER_LIMITS tier ResourceType.live_translation).total.isSome).daily -
            ds.getD 0)
          (getUsageStats (logUsage st now userId model it ot cm "live_translation"
              rh ds) now userId "live_translation"
              (TIER_LIMITS tier ResourceType.live_translation).total.isSome).daily
          (TIER_LIMITS tier ResourceType.live_translation).daily (ds.getD 0))
        (overflowPeriod
          ((getUsageStats (logUsage st now userId model it ot cm "live_translation"
              rh ds) now userId "live_translation"
              (TIER_LIMITS tier ResourceType.live_translation).total.isSome).monthly -
            ds.getD 0)
          (getUsageStats (logUsage st now userId model it ot cm "live_translation"
              rh ds) now userId "live_translation"
              (TIER_LIMITS tier ResourceType.live_translation).total.isSome).monthly
          (TIER_LIMITS tier ResourceType.live_translation).monthly (ds.getD 0)) =
      claimDeductible (TIER_LIMITS tier ResourceType.live_translation)
        (getUsageStats st now userId "live_translation" true).daily
        (getUsageStats st now userId "live_translation" true).monthly (ds.getD 0) := by
    rw [hpost.1, hpost.2, claimDeductible, Nat.add_sub_cancel, Nat.add_sub_cancel]
  simp only [logUsageWithTier]
  rw [if_pos ⟨by simp, hd⟩]
  rw [hded]
  refine ⟨?_, ?_, ?_⟩
  · split_ifs <;>
      exact (getUsageStats_logUsage_live st now userId model it ot cm rh ds true
        true).1
  · intro hpos
    rw [if_pos hpos]
    simp
  · intro hzero
    rw [if_neg (by omega)]

/-- C1 witness: with FREE limits (daily 600), prior daily and monthly usage of
300 s seeded by a real recording, a balance of 1000 s and a new 400 s live event,
the daily reading becomes 700 and the balance drops by exactly 100, to 900. -/
theorem live_overage_deduction_witness :
    (0 : Nat) < (some 400 : Option Nat).getD 0 ∧
    ((logUsageWithTier
        (logUsage emptyLedger ⟨"2026-01-01", "2026-01"⟩ "u1" "m" 0 0 0
          "live_translation" none (some 300))
        (fun u => if u = "u1" then some 1000 else none)
        ⟨"2026-01-01", "2026-01"⟩ "u1" "m" 0 0 0 "live_translation" none (some 400)
        MembershipTier.FREE).2 "u1") = some 900 := by
  refine ⟨by decide, ?_⟩
  have h := (live_overage_deduction
    (logUsage emptyLedger ⟨"2026-01-01", "2026-01"⟩ "u1" "m" 0 0 0
      "live_translation" none (some 300))
    (fun u => if u = "u1" then some 1000 else none)
    ⟨"2026-01-01", "2026-01"⟩ "u1" "m" 0 0 0 none (some 400)
    MembershipTier.FREE (by decide)).2.1 (by decide)
  rw [h]
  decide

/-- C6: delivering the same NON_RENEWING_PURCHASE twice (same transaction id)
increments the balance exactly once by the product's seconds, leaves exactly one
CreditPurchase audit row with that id, returns HTTP 200 for both deliveries, and
the second delivery changes nothing at all. -/
theorem purchase_idempotent (st : CreditLedger) (userId : String)
    (ev : ConsumableEvent) (now1 now2 : Int) (amount : Nat)
    (hamt : productAmount ev.productId = some amount)
    (hfresh : ∀ p ∈ st.purchases, p.id ≠ jsStrOr ev.transactionId ev.id) :
    ((consumableWebhook (consumableWebhook st userId ev now1).1 userId ev
        now2).1.balances userId = some ((st.balances userId).getD 0 + amount)) ∧
    (((consumableWebhook (consumableWebhook st userId ev now1).1 userId ev
        now2).1.purchases.filter
          (fun p => p.id == jsStrOr ev.transactionId ev.id)).length = 1) ∧
    (consumableWebhook st userId ev now1).2 = 200 ∧
    (consumableWebhook (consumableWebhook st userId ev now1).1 userId ev now2).2 =
      200 ∧
    (consumableWebhook (consumableWebhook st userId ev now1).1 userId ev now2).1 =
      (consumableWebhook st userId ev now1).1 := by
  have hany : st.purchases.any
      (fun p => p.id == jsStrOr ev.transactionId ev.id) = false := by
    rw [List.any_eq_false]
    intro p hp
    simpa using hfresh p hp
  have htx : handleConsumablePurchase st userId ev now1 =
      { purchases := st.purchases ++
          [⟨jsStrOr ev.transactionId ev.id, userId, ev.productId, amount,
            jsIntOr ev.purchasedAtMs now1, "revenuecat"⟩],
        balances := fun u =>
          if u = userId then some ((st.balances userId).getD 0 + amount)
          else st.balances u } := by
    simp [handleConsumablePurchase, hamt, hany]
  have hdup : handleConsumablePurchase (handleConsumablePurchase st userId ev now1)
      userId ev now2 = handleConsumablePurchase st userId ev now1 := by
    rw [htx]
    have hany2 : ((st.purchases ++
        [(⟨jsStrOr ev.transactionId ev.id, userId, ev.productId, amount,
          jsIntOr ev.purchasedAtMs now1, "revenuecat"⟩ : PurchaseRow)]).any
        (fun p => p.id == jsStrOr ev.transactionId ev.id)) = true := by
      simp [List.any_append]
    simp [handleConsumablePurchase, hamt, hany2]
  have hfil : (st.purchases.filter
      (fun p => p.id == jsStrOr ev.transactionId ev.id)) = [] := by
    rw [List.filter_eq_nil_iff]
    intro p hp
    simpa using hfresh p hp
  refine ⟨?_, ?_, rfl, rfl, ?_⟩
  · show (handleConsumablePurchase (handleConsumablePurchase st userId ev now1)
      userId ev now2).balances userId = _
    rw [hdup, htx]
    simp
  · show ((handleConsumablePurchase (handleConsumablePurchase st userId ev now1)
      userId ev now2).purchases.filter _).length = 1
    rw [hdup, htx]
    simp [List.filter_append, hfil]
  · exact hdup

/-- C6 witness: the one-hour package (packages_499, 3600 s) applied twice to a
fresh ledger credits 3600 exactly once and keeps a single audit row. -/
theorem purchase_idempotent_witness :
    productAmount "packages_499" = some 3600 ∧
    ((consumableWebhook
        (consumableWebhook ⟨[], fun _ => none⟩ "u1"
          ⟨"evt1", some "txn1", "packages_499", some 111⟩ 500).1 "u1"
        ⟨"evt1", some "txn1", "packages_499", some 111⟩ 600).1.balances "u1" =
      some 3600) := by
  refine ⟨by decide, ?_⟩
  have h := (purchase_idempotent ⟨[], fun _ => none⟩ "u1"
    ⟨"evt1", some "txn1", "packages_499", some 111⟩ 500 600 3600 (by decide)
    (by intro p hp; cases hp)).1
  simpa using h

/-- Auxiliary: evaluating a fold of same-valued entitlement upserts for one user. -/
theorem foldl_upsert_ents_eval (store : String × String → Option StoredEnt)
    (u : String) (ids : List String) (ex : Option Int) (stt : String)
    (orig : Option String) (tr ar : Bool) (k : String × String) :
    (ids.foldl (fun s entId => upsertUserEntitlement s u entId ex stt orig tr ar)
        store) k =
      if k.1 = u ∧ k.2 ∈ ids then
        some ⟨ex, stt, orig, if tr then 1 else 0, if ar then 1 else 0⟩
      else store k := by
  induction ids generalizing store with
  | nil => simp
  | cons i rest ih =>
      rw [List.foldl_cons, ih]
      by_cases hr : k.1 = u ∧ k.2 ∈ rest
      · have hcons : k.1 = u ∧ k.2 ∈ i :: rest := ⟨hr.1, List.mem_cons_of_mem i hr.2⟩
        rw [if_pos hr, if_pos hcons]
      · rw [if_neg hr]
        by_cases hk : k = (u, i)
        · subst hk
          simp [upsertUserEntitlement]
        · have hno : ¬(k.1 = u ∧ k.2 ∈ i :: rest) := by
            rintro ⟨h1, h2⟩
            rcases List.mem_cons.mp h2 with h2 | h2
            · exact hk (Prod.ext h1 h2)
            · exact hr ⟨h1, h2⟩
          rw [if_neg hno]
          simp only [upsertUserEntitlement, if_neg hk]

/-- Auxiliary: evaluating the TRANSFER double fold that marks every
(source user, entitlement) pair transferred. -/
theorem foldl_transfer_eval (store : String × String → Option StoredEnt)
    (froms ids : List String) (now : Int) (k : String × String) :
    (froms.foldl (fun s fromUserId => ids.foldl
        (fun s entId => upsertUserEntitlement s fromUserId entId (some now)
          "transferred" none false true) s) store) k =
      if k.1 ∈ froms ∧ k.2 ∈ ids then
        some ⟨some now, "transferred", none, 0, 1⟩
      else store k := by
  induction froms generalizing store with
  | nil => simp
  | cons f rest ih =>
      rw [List.foldl_cons, ih]
      by_cases hr : k.1 ∈ rest ∧ k.2 ∈ ids
      · have hcons : k.1 ∈ f :: rest ∧ k.2 ∈ ids :=
          ⟨List.mem_cons_of_mem f hr.1, hr.2⟩
        rw [if_pos hr, if_pos hcons]
      · rw [if_neg hr, foldl_upsert_ents_eval]
        by_cases hk : k.1 = f ∧ k.2 ∈ ids
        · have hcons : k.1 ∈ f :: rest ∧ k.2 ∈ ids := ⟨by simp [hk.1], hk.2⟩
          rw [if_pos hk, if_pos hcons]
          rfl
        · have hno : ¬(k.1 ∈ f :: rest ∧ k.2 ∈ ids) := by
            rintro ⟨h1, h2⟩
            rcases List.mem_cons.mp h1 with h1 | h1
            · exact hk ⟨h1, h2⟩
            · exact hr ⟨h1, h2⟩
          rw [if_neg hk, if_neg hno]

/-- C7 counterexample: a TRANSFER of `pro_member` from user A to user B with
`expiration_at_ms = 999999` processed at time 5000 marks A's row `transferred` and
B's row `active` as claimed, but the two rows do not carry the same expiresAt: B
keeps the event's 999999 while A's is stamped with the processing time 5000. -/
theorem transfer_expiry_mismatch_counterexample :
    ((handleRevenueCatWebhook (fun _ => none) (fun _ => none)
        ⟨"TRANSFER", none, ["pro_member"], some 999999, none, ["A"], ["B"]⟩
        5000).1 ("B", "pro_member") =
      some ⟨some 999999, "active", some "B", 0, 1⟩) ∧
    ((handleRevenueCatWebhook (fun _ => none) (fun _ => none)
        ⟨"TRANSFER", none, ["pro_member"], some 999999, none, ["A"], ["B"]⟩
        5000).1 ("A", "pro_member") =
      some ⟨some 5000, "transferred", none, 0, 1⟩) ∧
    ¬((handleRevenueCatWebhook (fun _ => none) (fun _ => none)
        ⟨"TRANSFER", none, ["pro_member"], some 999999, none, ["A"], ["B"]⟩
        5000).1 ("A", "pro_member")).bind StoredEnt.expiresAt =
      ((handleRevenueCatWebhook (fun _ => none) (fun _ => none)
        ⟨"TRANSFER", none, ["pro_member"], some 999999, none, ["A"], ["B"]⟩
        5000).1 ("B", "pro_member")).bind StoredEnt.expiresAt := by
  refine ⟨by decide, by decide, by decide⟩

/-- C7 amended: after a TRANSFER event carrying entitlement ids E and source users
`transferred_from`, for each e ∈ E every source user's (user, e) row has status
`transferred` with its expiresAt stamped to the processing time, and the resolved
target's (user, e) row has status `active` carrying the event's expiration_at_ms
(so the two rows share the entitlementId but not, in general, the expiresAt); when
app_user_id is absent the target identity is recovered from transferred_to[0], and
the webhook answers 200. -/
theorem transfer_marks_source_and_target (store : String × String → Option StoredEnt)
    (dir : String → Option String) (ev : RCEvent) (now : Int) (a e f : String)
    (htype : ev.type = "TRANSFER") (hres : resolveAppUserId ev = some a)
    (he : e ∈ ev.entitlementIds) (hf : f ∈ ev.transferredFrom)
    (hnt : ∀ f' ∈ ev.transferredFrom, f' ≠ (dir a).getD a) :
    ((handleRevenueCatWebhook store dir ev now).1 ((dir a).getD a, e) =
      some ⟨ev.expirationAtMs, "active", some a,
        if ev.periodType == some "TRIAL" then 1 else 0, 1⟩) ∧
    ((handleRevenueCatWebhook store dir ev now).1 (f, e) =
      some ⟨some now, "transferred", none, 0, 1⟩) ∧
    (handleRevenueCatWebhook store dir ev now).2 = 200 ∧
    (jsTruthyStr ev.appUserId = none → jsTruthyStr ev.transferredTo.head? = some a) := by
  have hids : ev.entitlementIds ≠ [] := List.ne_nil_of_mem he
  have hfroms : ev.transferredFrom ≠ [] := List.ne_nil_of_mem hf
  have hnotpc : ¬ev.type = "PRODUCT_CHANGE" := by rw [htype]; decide
  have hnotexp : ¬ev.type = "EXPIRATION" := by rw [htype]; decide
  have hnotcan : ¬(ev.type = "CANCELLATION" ∨ ev.type = "EXPIRATION") := by
    rw [htype]
    decide
  have hmain : handleRevenueCatWebhook store dir ev now =
      (ev.transferredFrom.foldl
        (fun s fromUserId => ev.entitlementIds.foldl
          (fun s entId => upsertUserEntitlement s fromUserId entId (some now)
            "transferred" none false true) s)
        (ev.entitlementIds.foldl
          (fun s entId => upsertUserEntitlement s ((dir a).getD a) entId
            ev.expirationAtMs "active" (some a) (ev.periodType == some "TRIAL") true)
          store), 200) := by
    simp only [handleRevenueCatWebhook, hres]
    rw [if_neg hids, if_neg hnotpc, if_neg hnotexp, if_neg hnotcan,
      if_pos ⟨htype, hfroms⟩]
  have h1 : (handleRevenueCatWebhook store dir ev now).1 =
      ev.transferredFrom.foldl
        (fun s fromUserId => ev.entitlementIds.foldl
          (fun s entId => upsertUserEntitlement s fromUserId entId (some now)
            "transferred" none false true) s)
        (ev.entitlementIds.foldl
          (fun s entId => upsertUserEntitlement s ((dir a).getD a) entId
            ev.expirationAtMs "active" (some a) (ev.periodType == some "TRIAL") true)
          store) := by
    rw [hmain]
  have h2 : (handleRevenueCatWebhook store dir ev now).2 = 200 := by
    rw [hmain]
  refine ⟨?_, ?_, h2, ?_⟩
  · rw [h1, foldl_transfer_eval]
    have hno : ¬(((dir a).getD a, e).1 ∈ ev.transferredFrom ∧
        ((dir a).getD a, e).2 ∈ ev.entitlementIds) := by
      rintro ⟨h1, _⟩
      exact hnt _ h1 rfl
    rw [if_neg hno, foldl_upsert_ents_eval, if_pos ⟨rfl, he⟩]
    rfl
  · rw [h1, foldl_transfer_eval]
    have hyes : ((f, e).1 ∈ ev.transferredFrom ∧ (f, e).2 ∈ ev.entitlementIds) :=
      ⟨hf, he⟩
    rw [if_pos hyes]
  · intro hnone
    simp only [resolveAppUserId, hnone] at hres
    by_cases hemp : ev.transferredTo = []
    · rw [if_neg (by simp [hemp])] at hres
      cases hres
    · rw [if_pos ⟨htype, hemp⟩] at hres
      exact hres

/-- C7 witness: the amended statement at the concrete A→B transfer of pro_member
with a missing app_user_id. -/
theorem transfer_marks_source_and_target_witness :
    ((handleRevenueCatWebhook (fun _ => none) (fun _ => none)
        ⟨"TRANSFER", none, ["pro_member"], some 999999, none, ["A"], ["B"]⟩
        5000).1 ("B", "pro_member") =
      some ⟨some 999999, "active", some "B", 0, 1⟩) ∧
    ((handleRevenueCatWebhook (fun _ => none) (fun _ => none)
        ⟨"TRANSFER", none, ["pro_member"], some 999999, none, ["A"], ["B"]⟩
        5000).1 ("A", "pro_member") =
      some ⟨some 5000, "transferred", none, 0, 1⟩) := by
  have h := transfer_marks_source_and_target (fun _ => none) (fun _ => none)
    ⟨"TRANSFER", none, ["pro_member"], some 999999, none, ["A"], ["B"]⟩
    5000 "B" "pro_member" "A" rfl (by decide) (by decide) (by decide)
    (by intro g hg; fin_cases hg; decide)
  exact ⟨by simpa using h.1, h.2.1⟩

/-- Auxiliary: an already-settled state absorbs any further terminating event. -/
theorem closeHandler_of_logged (sess : RelaySession) (st : RelayState) (t : Int)
    (h : st.logged = true) : closeHandler sess st t = st := by
  simp [closeHandler, h]

/-- Auxiliary: the first terminating event raises the settled flag. -/
theorem closeHandler_sets_logged (sess : RelaySession) (t : Int)
    (w : List LiveSettlement) : (closeHandler sess ⟨false, w⟩ t).logged = true := by
  simp only [closeHandler]
  split_ifs <;> simp_all

/-- Auxiliary: once settled, any tail of terminating events is inert. -/
theorem foldl_closeHandler_stuck (sess : RelaySession)
    (ts : List (RelayTrigger × Int)) (st : RelayState) (h : st.logged = true) :
    ts.foldl (fun st p => closeHandler sess st p.2) st = st := by
  induction ts with
  | nil => rfl
  | cons p rest ih =>
      rw [List.foldl_cons, closeHandler_of_logged sess st p.2 h]
      exact ih

/-- Auxiliary: what the first terminating event writes from a fresh state. -/
theorem closeHandler_fresh_written (sess : RelaySession) (t : Int) :
    (closeHandler sess (⟨false, []⟩ : RelayState) t).written =
      if (0 < (aggregateUsage sess.snapshots).input.total ∨
          0 < (aggregateUsage sess.snapshots).output.total) ∧
        0 < calculateCostFromBreakdown liveModelName (aggregateUsage sess.snapshots)
            PRICING_PER_1M_LIVE then
        [⟨sess.userId, liveModelName, (aggregateUsage sess.snapshots).input.audio,
          (aggregateUsage sess.snapshots).output.audio,
          calculateCostFromBreakdown liveModelName (aggregateUsage sess.snapshots)
            PRICING_PER_1M_LIVE,
          (Int.ceil (((t - sess.startTime : Int) : ℚ) / 1000)).toNat, sess.tier⟩]
      else [] := by
  simp only [closeHandler]
  split_ifs <;> simp_all

/-- C2 (amended form): every sequence of terminating events starting with one at
time `t` settles exactly as that first event dictates — the settlement body runs
at most once (at most one usage event is written), exactly one live_translation
event is written when the aggregated usage is non-zero AND its computed cost is
positive, with durationSeconds the elapsed wall-clock time to the first trigger in
whole seconds rounded up and cost computed from the per-modality token counts
summed across every observed snapshot; nothing is written otherwise. -/
theorem relay_settlement_once (sess : RelaySession) (tr : RelayTrigger) (t : Int)
    (rest : List (RelayTrigger × Int)) :
    runTriggers sess ((tr, t) :: rest) = closeHandler sess ⟨false, []⟩ t ∧
    (runTriggers sess ((tr, t) :: rest)).written.length ≤ 1 ∧
    ((0 < (aggregateUsage sess.snapshots).input.total ∨
        0 < (aggregateUsage sess.snapshots).output.total) →
      0 < calculateCostFromBreakdown liveModelName (aggregateUsage sess.snapshots)
          PRICING_PER_1M_LIVE →
      (runTriggers sess ((tr, t) :: rest)).written =
        [⟨sess.userId, liveModelName, (aggregateUsage sess.snapshots).input.audio,
          (aggregateUsage sess.snapshots).output.audio,
          calculateCostFromBreakdown liveModelName (aggregateUsage sess.snapshots)
            PRICING_PER_1M_LIVE,
          (Int.ceil (((t - sess.startTime : Int) : ℚ) / 1000)).toNat, sess.tier⟩]) ∧
    (¬((0 < (aggregateUsage sess.snapshots).input.total ∨
          0 < (aggregateUsage sess.snapshots).output.total) ∧
        0 < calculateCostFromBreakdown liveModelName (aggregateUsage sess.snapshots)
            PRICING_PER_1M_LIVE) →
      (runTriggers sess ((tr, t) :: rest)).written = []) := by
  have hfirst : runTriggers sess ((tr, t) :: rest) =
      closeHandler sess ⟨false, []⟩ t := by
    show ((tr, t) :: rest).foldl _ (⟨false, []⟩ : RelayState) = _
    rw [List.foldl_cons]
    exact foldl_closeHandler_stuck sess rest _ (closeHandler_sets_logged sess t [])
  refine ⟨hfirst, ?_, ?_, ?_⟩
  · rw [hfirst, closeHandler_fresh_written]
    split_ifs <;> simp
  · intro h1 h2
    rw [hfirst, closeHandler_fresh_written, if_pos ⟨h1, h2⟩]
  · intro h
    rw [hfirst, closeHandler_fresh_written, if_neg h]

/-- C2 counterexample to the claim as stated: a session whose only usage snapshot
carries 7 output tokens of IMAGE modality has a non-zero aggregated usage
(`output.total = 7`), yet after the caller closes no usage event is written,
because the live price table prices no IMAGE modality and the computed cost is 0
(the settlement writes only when `cost > 0`). -/
theorem relay_nonzero_usage_no_event_counterexample :
    (0 < (aggregateUsage [⟨none, none, none, none, none,
        some [⟨"IMAGE", 7⟩], none⟩]).input.total ∨
      0 < (aggregateUsage [⟨none, none, none, none, none,
        some [⟨"IMAGE", 7⟩], none⟩]).output.total) ∧
    (runTriggers ⟨1000, "u1", MembershipTier.FREE,
        [⟨none, none, none, none, none, some [⟨"IMAGE", 7⟩], none⟩]⟩
      [(RelayTrigger.callerClose, 2500)]).written.length = 0 := by
  have hagg : aggregateUsage [⟨none, none, none, none, none,
      some [⟨"IMAGE", 7⟩], none⟩] = ⟨0, ⟨0, 0, 0, 0, 0⟩, ⟨7, 7, 0, 0, 0⟩⟩ := by
    decide
  have hcost : calculateCostFromBreakdown liveModelName
      (⟨0, ⟨0, 0, 0, 0, 0⟩, ⟨7, 7, 0, 0, 0⟩⟩ : CostBreakdown)
      PRICING_PER_1M_LIVE = 0 := by
    simp [calculateCostFromBreakdown, PRICING_PER_1M_LIVE, liveModelName]
  refine ⟨by decide, ?_⟩
  have hrun : runTriggers ⟨1000, "u1", MembershipTier.FREE,
      [⟨none, none, none, none, none, some [⟨"IMAGE", 7⟩], none⟩]⟩
      [(RelayTrigger.callerClose, 2500)] =
      closeHandler ⟨1000, "u1", MembershipTier.FREE,
        [⟨none, none, none, none, none, some [⟨"IMAGE", 7⟩], none⟩]⟩
        ⟨false, []⟩ 2500 := rfl
  rw [hrun, closeHandler_fresh_written, if_neg ?hneg]
  case hneg =>
    rintro ⟨-, hc⟩
    rw [show (⟨1000, "u1", MembershipTier.FREE,
      [⟨none, none, none, none, none, some [⟨"IMAGE", 7⟩], none⟩]⟩ :
        RelaySession).snapshots =
      [⟨none, none, none, none, none, some [⟨"IMAGE", 7⟩], none⟩] from rfl,
      hagg, hcost] at hc
    exact absurd hc (by norm_num)
  rfl

/-- C2 witness: two audio snapshots (prompt 10+5 audio tokens, response 20+7 audio
tokens), caller close at 1500 ms elapsed followed by an upstream error: exactly one
event is written, with the summed audio counts 15/27, cost
ceil((0+15)·0.5 + 15·3 + 27·12) = 377 and duration ceil(1.5) = 2 s. -/
theorem relay_settlement_once_witness :
    (runTriggers ⟨1000, "u1", MembershipTier.FREE,
        [⟨some 10, none, none, none, some [⟨"AUDIO", 10⟩], none,
            some [⟨"AUDIO", 20⟩]⟩,
          ⟨some 5, none, none, none, some [⟨"AUDIO", 5⟩], none,
            some [⟨"AUDIO", 7⟩]⟩]⟩
      [(RelayTrigger.callerClose, 2500), (RelayTrigger.upstreamError, 9999)]).written =
    [⟨"u1", liveModelName, 15, 27, 377, 2, MembershipTier.FREE⟩] := by
  have hagg : aggregateUsage [⟨some 10, none, none, none,
      some [⟨"AUDIO", 10⟩], none, some [⟨"AUDIO", 20⟩]⟩,
      ⟨some 5, none, none, none, some [⟨"AUDIO", 5⟩], none,
        some [⟨"AUDIO", 7⟩]⟩] = ⟨0, ⟨15, 0, 0, 15, 15⟩, ⟨27, 0, 0, 27, 0⟩⟩ := by
    decide
  have hcost : calculateCostFromBreakdown liveModelName
      (⟨0, ⟨15, 0, 0, 15, 15⟩, ⟨27, 0, 0, 27, 0⟩⟩ : CostBreakdown)
      PRICING_PER_1M_LIVE = 377 := by
    simp only [calculateCostFromBreakdown, PRICING_PER_1M_LIVE, liveModelName]
    norm_num
    rw [Int.ceil_eq_iff]
    norm_num
  have h := (relay_settlement_once ⟨1000, "u1", MembershipTier.FREE,
      [⟨some 10, none, none, none, some [⟨"AUDIO", 10⟩], none,
          some [⟨"AUDIO", 20⟩]⟩,
        ⟨some 5, none, none, none, some [⟨"AUDIO", 5⟩], none,
          some [⟨"AUDIO", 7⟩]⟩]⟩
    RelayTrigger.callerClose 2500 [(RelayTrigger.upstreamError, 9999)]).2.2.1
    (by simp [hagg]) (by simp [hagg, hcost])
  simp only [hagg, hcost] at h
  rw [h]
  norm_num
  have hc : (⌈(3 : ℚ) / 2⌉ : Int) = 2 := by
    rw [Int.ceil_eq_iff]
    norm_num
  rw [hc]
  rfl

/-- C9 counterexample to the claim as stated: the string frame whose JSON parse is
the object with a top-level `setup` field holding `false` does parse as JSON with a
top-level setup field, yet it is forwarded upstream verbatim, because the drop
test is JS truthiness of `json.setup`, not field presence. -/
theorem setup_falsy_forwarded_counterexample :
    getField (.obj [("setup", .bool false)]) "setup" = some (.bool false) ∧
    clientMessageHandler
        (.strFrame "client-setup-false-frame" (some (.obj [("setup", .bool false)]))) =
      .forwardFrame
        (.strFrame "client-setup-false-frame" (some (.obj [("setup", .bool false)]))) := by
  refine ⟨rfl, rfl⟩

/-- C9 (amended form): every caller frame is either dropped or forwarded upstream
verbatim, and it is dropped exactly when it is a string frame whose JSON parse
succeeds with a truthy top-level `setup` property; binary frames, unparseable
strings, setup-less values and frames whose setup value is falsy are all forwarded
unchanged. -/
theorem relay_drops_only_truthy_setup (f : ClientFrame) :
    (clientMessageHandler f = .dropFrame ∨ clientMessageHandler f = .forwardFrame f) ∧
    (clientMessageHandler f = .dropFrame ↔
      ∃ raw json v, f = .strFrame raw (some json) ∧
        getField json "setup" = some v ∧ jsTruthy v = true) := by
  cases f with
  | binFrame bytes =>
      constructor
      · right
        rfl
      · constructor
        · intro h
          cases h
        · rintro ⟨raw, json, v, h, -⟩
          cases h
  | strFrame raw parsed =>
      cases parsed with
      | none =>
          constructor
          · right
            rfl
          · constructor
            · intro h
              cases h
            · rintro ⟨raw', json, v, h, -⟩
              cases h
      | some json =>
          cases hg : getField json "setup" with
          | none =>
              constructor
              · right
                simp [clientMessageHandler, hg]
              · constructor
                · intro h
                  simp [clientMessageHandler, hg] at h
                · rintro ⟨raw', json', v, h, hg', -⟩
                  cases h
                  rw [hg'] at hg
                  cases hg
          | some v =>
              cases hv : jsTruthy v with
              | false =>
                  constructor
                  · right
                    simp [clientMessageHandler, hg, hv]
                  · constructor
                    · intro h
                      simp [clientMessageHandler, hg, hv] at h
                    · rintro ⟨raw', json', v', h, hg', hv'⟩
                      cases h
                      rw [hg'] at hg
                      cases hg
                      rw [hv'] at hv
                      cases hv
              | true =>
                  constructor
                  · left
                    simp [clientMessageHandler, hg, hv]
                  · constructor
                    · intro _
                      exact ⟨raw, json, v, rfl, hg, hv⟩
                    · intro _
                      simp [clientMessageHandler, hg, hv]

end Flash
